import Mathlib

/-!
Shallow embedding of the batch video-processing engine
(`src/video_processor/ffmpeg.py`, `src/video_processor/engine.py`,
`src/video_processor/logging.py`) and proofs about its specification.

Python floats that carry media durations are modelled exactly as rationals;
Python `int` is modelled as `Int`; Python `str` as Lean `String`
(operated on through its character list); fallible operations return
`Option` or `Except`.  Side effects (callback emissions, logging, process
launches, filesystem operations) are recorded as an explicit effect list.
-/

/-- Python whitespace characters recognised by `str.strip()`. -/
def isPySpace (c : Char) : Bool :=
  c == ' ' || c == '\t' || c == '\n' || c == '\r' || c == '\x0b' || c == '\x0c'

/-- Python `str.strip()` on a character list. -/
def stripList (cs : List Char) : List Char :=
  ((cs.dropWhile isPySpace).reverse.dropWhile isPySpace).reverse

/-- Python `line.strip()`. -/
def pyStrip (s : String) : String := String.mk (stripList s.data)

/-- Does the character list start with the pattern? -/
def listStartsWith : List Char → List Char → Bool
  | [], _ => true
  | _ :: _, [] => false
  | p :: ps, c :: cs => p == c && listStartsWith ps cs

/-- Does the character list contain the pattern as a contiguous run? -/
def listContainsSub (pat : List Char) : List Char → Bool
  | [] => pat.isEmpty
  | c :: cs => listStartsWith pat (c :: cs) || listContainsSub pat cs

/-- Python `pat in s` substring test. -/
def strContains (s pat : String) : Bool := listContainsSub pat.data s.data

/-- Python `s.lower()` (ASCII; enough for the signatures the code matches). -/
def pyLower (s : String) : String := String.mk (s.data.map Char.toLower)

/-- Digits-only parse of a character list; `none` when empty or non-digit. -/
def digitsToNat (cs : List Char) : Option ℕ :=
  if cs ≠ [] ∧ cs.all Char.isDigit then
    some (cs.foldl (fun a c => a * 10 + (c.toNat - 48)) 0)
  else none

/-- Model of Python `int(value)`: optional surrounding whitespace, optional sign, digits;
raising `ValueError` is modelled as `none`. -/
def parseInt (s : String) : Option ℤ :=
  match (pyStrip s).data with
  | '+' :: rest => (digitsToNat rest).map (fun n => (n : ℤ))
  | '-' :: rest => (digitsToNat rest).map (fun n => -(n : ℤ))
  | cs => (digitsToNat cs).map (fun n => (n : ℤ))

/-- Model of `ffmpeg.MediaInfo`: probe result; duration in seconds. -/
structure MediaInfo where
  duration : Option ℚ := none
  width : Option ℤ := none
  height : Option ℤ := none
  video_codec : Option String := none
  audio_codec : Option String := none
  fps : Option ℚ := none
  rotation : Option ℤ := none
deriving Repr, DecidableEq

/-- Model of `ffmpeg.progress_from_out_time`: map a cumulative elapsed-time counter in
microseconds and an optional duration in seconds to an optional percentage:
`max(0, min(100, floor(out_time_us / (duration * 1_000_000) * 100)))`,
`none` when the duration is unknown or non-positive. -/
def progress_from_out_time (out_time_us : ℤ) (duration : Option ℚ) : Option ℤ :=
  match duration with
  | none => none
  | some d =>
    if d ≤ 0 then none
    else
      let total_us : ℚ := d * 1000000
      if total_us ≤ 0 then none
      else some (max 0 (min 100 ⌊((out_time_us : ℤ) : ℚ) / total_us * 100⌋))

/-- A progress line of the external process, as parsed by the worker loop:
an `out_time_ms` counter (whose value is microseconds), the end-of-stream
marker `progress=end`, or anything else (ignored). -/
inductive PEvent where
  | outTime (us : ℤ)
  | endMark
  | other
deriving Repr, DecidableEq

/-- Split a character list at the first `'='`; `none` when there is none
(Python `"=" not in line` / `line.split("=", 1)`). -/
def splitFirstEq : List Char → Option (List Char × List Char)
  | [] => none
  | c :: rest =>
    if c == '=' then some ([], rest)
    else
      match splitFirstEq rest with
      | none => none
      | some (k, v) => some (c :: k, v)

/-- Parse one stdout line the way `engine._process_item`'s loop does:
strip, skip lines without `'='`, split once at `'='`, recognise
`out_time_ms=<int>` and `progress=end`; everything else is ignored. -/
def parseLine (line : String) : PEvent :=
  match splitFirstEq (stripList line.data) with
  | none => PEvent.other
  | some (k, v) =>
    let key := String.mk k
    let value := String.mk v
    if key = "out_time_ms" then
      match parseInt value with
      | none => PEvent.other
      | some n => PEvent.outTime n
    else if key = "progress" ∧ value = "end" then PEvent.endMark
    else PEvent.other

/-! ### Engine data model (`engine.py`) -/

def STATUS_QUEUED : String := "queued"

def STATUS_RUNNING : String := "running"

def STATUS_COMPLETED : String := "completed"

def STATUS_FAILED : String := "failed"

def STATUS_SKIPPED : String := "skipped"

def STATUS_CANCELED : String := "canceled"

/-- Model of `engine.WorkItem`: one file's transcode job and its lifecycle state. -/
structure WorkItem where
  id : ℤ
  input_path : String
  output_path : String
  status : String := STATUS_QUEUED
  progress : Option ℤ := some 0
  message : String := ""
  error : String := ""
  start_time : Option ℚ := none
  end_time : Option ℚ := none
  input_bytes : Option ℤ := none
  output_bytes : Option ℤ := none
  media : Option MediaInfo := none
  output_media : Option MediaInfo := none
deriving Repr, DecidableEq

/-- A filesystem path split the way `pathlib` exposes it to this code:
parent directory, stem and suffix (the extension, dot included). -/
structure FsPath where
  parent : String
  stem : String
  suffix : String
deriving Repr, DecidableEq

def FsPath.name (p : FsPath) : String := p.stem ++ p.suffix

def FsPath.render (p : FsPath) : String := p.parent ++ "/" ++ p.name

/-- Existence check against a snapshot of the filesystem, modelled as the
list of paths that exist. -/
def fsExists (fs : List String) (p : FsPath) : Bool := fs.contains p.render

/-- The candidate tried by `engine._suffix_path` at a given counter:
`path.with_name(f"{path.stem}_{counter}{path.suffix}")`. -/
def suffixCandidate (path : FsPath) (counter : ℕ) : FsPath :=
  { path with stem := path.stem ++ "_" ++ toString counter }

/-- The search loop of `engine._suffix_path`, with explicit fuel standing in
for the unbounded `while True`; `none` means the loop did not finish within
`fuel` iterations (on a finite filesystem it always finishes). -/
def suffixPathAux (fs : List String) (path : FsPath) : ℕ → ℕ → Option FsPath
  | _, 0 => none
  | counter, fuel + 1 =>
    let candidate := suffixCandidate path counter
    if fsExists fs candidate then suffixPathAux fs path (counter + 1) fuel
    else some candidate

/-- Model of `engine._suffix_path`: append `_1`, `_2`, ... to the stem until the
candidate does not exist. -/
def suffix_path (fs : List String) (path : FsPath) (fuel : ℕ) : Option FsPath :=
  suffixPathAux fs path 1 fuel

/-- First temporary-output candidate of `engine._temp_output_path`. -/
def tempCandidate0 (path : FsPath) : FsPath :=
  if path.suffix ≠ "" then { path with stem := path.stem ++ ".partial" }
  else { path with suffix := ".partial" }

/-- Numbered temporary-output candidate of `engine._temp_output_path`. -/
def tempCandidateN (path : FsPath) (counter : ℕ) : FsPath :=
  if path.suffix ≠ "" then { path with stem := path.stem ++ ".partial" ++ toString counter }
  else { path with stem := path.name ++ ".partial" ++ toString counter, suffix := "" }

def tempOutputPathAux (fs : List String) (path : FsPath) : ℕ → ℕ → Option FsPath
  | _, 0 => none
  | counter, fuel + 1 =>
    let candidate := tempCandidateN path counter
    if fsExists fs candidate then tempOutputPathAux fs path (counter + 1) fuel
    else some candidate

/-- Model of `engine._temp_output_path`: the `.partial` sibling, disambiguated with an
incrementing counter while taken.  Fuel exhaustion (impossible on a finite
filesystem) falls back to the base candidate; no theorem depends on it. -/
def temp_output_path (fs : List String) (path : FsPath) (fuel : ℕ) : FsPath :=
  let temp := tempCandidate0 path
  if fsExists fs temp then (tempOutputPathAux fs path 1 fuel).getD temp
  else temp

/-- The per-file collision handling of `engine.scan_inputs` (its lines
157-166): returns the initial status, the initial message and the chosen
destination. -/
def resolveCollision (collision_policy : String) (fs : List String) (out_path : FsPath)
    (fuel : ℕ) : String × String × Option FsPath :=
  if fsExists fs out_path then
    if collision_policy = "skip" then (STATUS_SKIPPED, "output exists", some out_path)
    else if collision_policy = "suffix" then (STATUS_QUEUED, "", suffix_path fs out_path fuel)
    else (STATUS_QUEUED, "", some out_path)
  else (STATUS_QUEUED, "", some out_path)

/-! ### One worker processing one item (`engine._process_item`) -/

/-- Observable side effects of `_process_item`, in order of occurrence. -/
inductive Effect where
  | emit (it : WorkItem)
  | logItem (it : WorkItem)
  | mkdirParent (path : String)
  | probeInput (path : String)
  | launch (input_path temp_path : String)
  | terminate
  | waitExit
  | cleanupPartial (path : String)
  | unlinkExisting (path : String)
  | replaceTo (src dst : String)
  | probeOutput (path : String)
deriving Repr, DecidableEq

/-- The cancellation event, which is only ever set, observed at loop
iteration `i`: `some j` means the flag became set at time `j`, measured in
processed stdout lines; `none` means it is never set during this call. -/
def cancelSetAt (cancelAt : Option ℕ) (i : ℕ) : Bool :=
  match cancelAt with
  | none => false
  | some j => j ≤ i

/-- The stdout-reading loop of `_process_item` (its lines 355-375): fold the
progress lines, updating `item.progress` and emitting the item on change;
`out_time_ms` maps through `progress_from_out_time` and is emitted only when
the computed value differs, `progress=end` unconditionally sets 100 and
emits; a set cancellation flag terminates the process and breaks. -/
def runLoop (duration : Option ℚ) (cancelAt : Option ℕ) :
    List String → ℕ → WorkItem → List Effect → WorkItem × List Effect
  | [], _, it, effs => (it, effs)
  | line :: rest, i, it, effs =>
    if cancelSetAt cancelAt i then (it, effs ++ [Effect.terminate])
    else
      match parseLine line with
      | PEvent.other => runLoop duration cancelAt rest (i + 1) it effs
      | PEvent.outTime us =>
        match progress_from_out_time us duration with
        | none => runLoop duration cancelAt rest (i + 1) it effs
        | some p =>
          if some p ≠ it.progress then
            runLoop duration cancelAt rest (i + 1) { it with progress := some p }
              (effs ++ [Effect.emit { it with progress := some p }])
          else runLoop duration cancelAt rest (i + 1) it effs
      | PEvent.endMark =>
        runLoop duration cancelAt rest (i + 1) { it with progress := some 100 }
          (effs ++ [Effect.emit { it with progress := some 100 }])

/-- The progress values carried by the emissions in an effect list. -/
def emittedProgress (effs : List Effect) : List ℤ :=
  effs.filterMap (fun e =>
    match e with
    | Effect.emit it => it.progress
    | _ => none)

/-- The slice of `AppConfig` that `_process_item` consults. -/
structure Config where
  dry_run : Bool
  collision_policy : String
deriving Repr, DecidableEq

instance {ε α : Type} [DecidableEq ε] [DecidableEq α] : DecidableEq (Except ε α) :=
  fun a b =>
  match a, b with
  | Except.error e, Except.error f =>
    if h : e = f then isTrue (by rw [h]) else isFalse (by intro hh; cases hh; exact h rfl)
  | Except.error _, Except.ok _ => isFalse (by intro hh; cases hh)
  | Except.ok _, Except.error _ => isFalse (by intro hh; cases hh)
  | Except.ok x, Except.ok y =>
    if h : x = y then isTrue (by rw [h]) else isFalse (by intro hh; cases hh; exact h rfl)

/-- Environment of one `_process_item` call: outcome of every external
interaction (clock, filesystem, probe, process, finalize). -/
structure ProcEnv where
  cancelAtStart : Bool := false
  cancelAt : Option ℕ := none
  startClock : ℚ := 0
  endClock : ℚ := 0
  fs : List String := []
  tempFuel : ℕ := 1
  inputSize : Option ℤ := none
  probeResult : Except String MediaInfo := Except.error ""
  stdoutLines : List String := []
  returncode : ℤ := 0
  stderrLines : List String := []
  finalizeOk : Bool := true
  finalizeErr : String := ""
  outputExistsAtFinalize : Bool := false
  outputSize : Option ℤ := none
  outputProbe : Except String MediaInfo := Except.error ""
deriving Repr, DecidableEq

/-- The corruption-signature test of `_process_item` (its line 303). -/
def isCorruptionSignature (error_msg : String) : Bool :=
  strContains (pyLower error_msg) "moov atom not found" ||
  strContains (pyLower error_msg) "invalid data found when processing input"

/-- Python `"; ".join(stderr_lines).strip() or "ffmpeg failed"` (its line 393). -/
def joinedStderr (stderr_lines : List String) : String :=
  let s := pyStrip (String.intercalate "; " stderr_lines)
  if s = "" then "ffmpeg failed" else s

/-- Python truthiness test `not item.media.duration` (its line 298):
true for a missing duration and for a zero one. -/
def durationFalsy (d : Option ℚ) : Bool :=
  match d with
  | none => true
  | some q => q == 0

/-- Model of `engine._process_item`: drive one dequeued item through probe, encode,
progress loop and finalize.  Returns the final item and the ordered effect
list.  `out` is `Path(item.output_path)`. -/
def process_item (config : Config) (env : ProcEnv) (item : WorkItem) (out : FsPath) :
    WorkItem × List Effect :=
  if env.cancelAtStart then
    let it := { item with status := STATUS_CANCELED }
    (it, [Effect.emit it])
  else
    let it := { item with status := STATUS_RUNNING, start_time := some env.startClock,
                          progress := some 0 }
    let effs : List Effect := [Effect.emit it, Effect.mkdirParent out.parent]
    let temp_output := temp_output_path env.fs out env.tempFuel
    let it := { it with input_bytes := env.inputSize }
    if config.dry_run then
      let it := { it with status := STATUS_SKIPPED, message := "dry-run",
                          end_time := some env.endClock }
      (it, effs ++ [Effect.emit it, Effect.logItem it])
    else
      let effs := effs ++ [Effect.probeInput item.input_path]
      match env.probeResult with
      | Except.error msg =>
        let it :=
          if isCorruptionSignature msg then
            { it with status := STATUS_FAILED,
                      error := "File is corrupted or incomplete: " ++ msg }
          else { it with status := STATUS_FAILED, error := msg }
        let it := { it with end_time := some env.endClock }
        (it, effs ++ [Effect.emit it, Effect.logItem it])
      | Except.ok m =>
        let it := { it with media := some m }
        let it := if durationFalsy m.duration then { it with progress := none } else it
        let effs := effs ++ [Effect.launch item.input_path temp_output.render]
        let st := runLoop m.duration env.cancelAt env.stdoutLines 0 it effs
        let it := st.1
        let effs := st.2 ++ [Effect.waitExit]
        if cancelSetAt env.cancelAt env.stdoutLines.length then
          let it := { it with status := STATUS_CANCELED, end_time := some env.endClock }
          (it, effs ++ [Effect.cleanupPartial temp_output.render, Effect.emit it,
                        Effect.logItem it])
        else
          let it :=
            if env.returncode ≠ 0 then
              { it with status := STATUS_FAILED, error := joinedStderr env.stderrLines }
            else { it with status := STATUS_COMPLETED, progress := some 100 }
          let it := { it with end_time := some env.endClock }
          let st2 :=
            if it.status = STATUS_COMPLETED then
              let effs :=
                if env.outputExistsAtFinalize ∧ config.collision_policy = "overwrite" then
                  effs ++ [Effect.unlinkExisting out.render]
                else effs
              let effs := effs ++ [Effect.mkdirParent out.parent,
                                   Effect.replaceTo temp_output.render out.render]
              if env.finalizeOk then (it, effs)
              else
                ({ it with status := STATUS_FAILED,
                           error := "Failed to finalize output: " ++ env.finalizeErr },
                 effs ++ [Effect.cleanupPartial temp_output.render])
            else (it, effs ++ [Effect.cleanupPartial temp_output.render])
          let it := st2.1
          let effs := st2.2
          let it :=
            if it.status = STATUS_COMPLETED then { it with output_bytes := env.outputSize }
            else it
          let st3 :=
            if it.status = STATUS_COMPLETED then
              ({ it with output_media := env.outputProbe.toOption },
               effs ++ [Effect.probeOutput out.render])
            else (it, effs)
          (st3.1, st3.2 ++ [Effect.emit st3.1, Effect.logItem st3.1])

/-! ### Batch control (`engine.BatchHandle`) -/

/-- The per-item sweep of `BatchHandle._mark_queued_canceled`. -/
def cancelSweepItem (it : WorkItem) : WorkItem :=
  if it.status = STATUS_QUEUED then
    { it with status := STATUS_CANCELED, message := "canceled" }
  else it

/-- The per-item action of `BatchHandle.retry_failed`. -/
def retrySweepItem (it : WorkItem) : WorkItem :=
  if it.status = STATUS_FAILED then
    { it with status := STATUS_QUEUED, progress := some 0, error := "" }
  else it

/-- Model of `engine.BatchHandle`: the arena of items plus the shared control state
(queue of pending job ids, pause/cancel flags, in-flight process registry,
logger-close bookkeeping); threads are abstracted away. -/
structure BatchHandle where
  items : List WorkItem
  queue : List ℤ := []
  pauseSet : Bool := true
  cancelSet : Bool := false
  registry : List ℤ := []
  closed : Bool := false
  loggerCloses : ℕ := 0
deriving Repr, DecidableEq

/-- Model of `BatchHandle._mark_queued_canceled`: sweep still-queued items to
canceled and return the list reported through the item callback. -/
def BatchHandle.mark_queued_canceled (h : BatchHandle) : BatchHandle × List WorkItem :=
  ({ h with items := h.items.map cancelSweepItem },
   (h.items.filter (fun it => it.status == STATUS_QUEUED)).map cancelSweepItem)

/-- Model of `BatchHandle.cancel`: set the cancellation flag, request termination of
every process in the registry snapshot, then sweep queued items.  Returns
the new state, the job ids whose processes received a terminate request and
the items reported through the callback. -/
def BatchHandle.cancel (h : BatchHandle) : BatchHandle × List ℤ × List WorkItem :=
  let h1 := { h with cancelSet := true }
  let terminated := h1.registry
  let swept := h1.mark_queued_canceled
  (swept.1, terminated, swept.2)

/-- Model of `BatchHandle.retry_failed`: re-enqueue every failed item as queued with
progress 0 and error cleared. -/
def BatchHandle.retry_failed (h : BatchHandle) : BatchHandle :=
  { h with
    items := h.items.map retrySweepItem,
    queue := h.queue ++
      (h.items.filter (fun it => it.status == STATUS_FAILED)).map (fun it => it.id) }

/-- Model of `BatchHandle.wait` after the thread joins (abstracted): close the
logging sink once, guarded by the `_closed` flag. -/
def BatchHandle.wait (h : BatchHandle) : BatchHandle :=
  if ¬ h.closed then { h with closed := true, loggerCloses := h.loggerCloses + 1 }
  else h

/-! ### Process termination (`engine._terminate_process`) -/

/-- How one external process reacts to the supervisor's cleanup calls. -/
structure ProcBehavior where
  terminateRaises : Bool
  exitsWithinGrace : Bool
  killRaises : Bool
deriving Repr, DecidableEq

inductive TermAction where
  | terminateReq
  | waitFor (timeout : ℕ)
  | killReq
deriving Repr, DecidableEq

/-- Python `proc.terminate()`: may raise `OSError`. -/
def pyTerminate (p : ProcBehavior) : Except String Unit :=
  if p.terminateRaises then Except.error "OSError" else Except.ok ()

/-- Python `proc.wait(timeout=t)`: raises `TimeoutExpired` when the process has not
exited within the grace period. -/
def pyWaitTimeout (p : ProcBehavior) (_t : ℕ) : Except String Unit :=
  if p.exitsWithinGrace then Except.ok () else Except.error "TimeoutExpired"

/-- Python `proc.kill()`: may raise `OSError`. -/
def pyKill (p : ProcBehavior) : Except String Unit :=
  if p.killRaises then Except.error "OSError" else Except.ok ()

/-- Model of `engine._terminate_process`: graceful terminate, wait up to 3 time
units, then forced kill; every failure is swallowed.  Returns the (always
ok) outcome and the ordered list of requests issued to the process. -/
def terminate_process (p : ProcBehavior) : Except String Unit × List TermAction :=
  match pyTerminate p with
  | Except.error _ => (Except.ok (), [TermAction.terminateReq])
  | Except.ok _ =>
    match pyWaitTimeout p 3 with
    | Except.ok _ => (Except.ok (), [TermAction.terminateReq, TermAction.waitFor 3])
    | Except.error _ =>
      match pyKill p with
      | Except.error _ =>
        (Except.ok (), [TermAction.terminateReq, TermAction.waitFor 3, TermAction.killReq])
      | Except.ok _ =>
        (Except.ok (), [TermAction.terminateReq, TermAction.waitFor 3, TermAction.killReq])

/-- The percentage `progress_from_out_time` produces for a known positive
duration. -/
def clampPct (d : ℚ) (v : ℤ) : ℤ := max 0 (min 100 ⌊(v : ℚ) / (d * 1000000) * 100⌋)

/-- An item as it looks in the spec scenarios. -/
def sampleItem : WorkItem :=
  { id := 1, input_path := "in.mp4", output_path := "out/in.mp4" }

def sampleOut : FsPath := { parent := "out", stem := "in", suffix := ".mp4" }

def c7fs : List String := ["out/in.mp4", "out/in_1.mp4"]

def c4Config : Config := { dry_run := false, collision_policy := "skip" }

def c4Env : ProcEnv :=
  { probeResult := Except.ok { duration := some 10 },
    returncode := 1,
    stderrLines := ["invalid data found when processing input"] }

def c4ProbeEnv : ProcEnv :=
  { probeResult := Except.error "invalid data found when processing input" }

def c5Env : ProcEnv :=
  { probeResult := Except.ok { duration := none },
    stdoutLines := ["progress=end"],
    returncode := 0 }

def outTimeValues (evs : List PEvent) : List ℤ :=
  evs.filterMap (fun e =>
    match e with
    | PEvent.outTime v => some v
    | _ => none)

/-- No `out_time_ms` event occurs after an end-of-stream marker. -/
def noOutAfterEnd : List PEvent → Bool
  | [] => true
  | PEvent.endMark :: rest =>
    rest.all (fun e =>
      match e with
      | PEvent.outTime _ => false
      | _ => true) && noOutAfterEnd rest
  | _ :: rest => noOutAfterEnd rest

/-! ### General lemmas about the embedding -/

lemma emittedProgress_append (a b : List Effect) :
    emittedProgress (a ++ b) = emittedProgress a ++ emittedProgress b := by
  simp [emittedProgress]


lemma progress_from_out_time_pos (d : ℚ) (hd : 0 < d) (v : ℤ) :
    progress_from_out_time v (some d) = some (clampPct d v) := by
  have h1 : ¬ d ≤ 0 := not_le.mpr hd
  have h2 : ¬ (d * 1000000 : ℚ) ≤ 0 := not_le.mpr (by positivity)
  simp [progress_from_out_time, clampPct, h1, h2]

lemma clampPct_nonneg (d : ℚ) (v : ℤ) : 0 ≤ clampPct d v := le_max_left _ _

lemma clampPct_le_100 (d : ℚ) (v : ℤ) : clampPct d v ≤ 100 :=
  max_le (by norm_num) (min_le_left _ _)

lemma clampPct_mono (d : ℚ) (hd : 0 < d) {v1 v2 : ℤ} (h : v1 ≤ v2) :
    clampPct d v1 ≤ clampPct d v2 := by
  apply max_le_max (le_refl 0)
  apply min_le_min (le_refl 100)
  apply Int.floor_le_floor
  have hc : (v1 : ℚ) ≤ (v2 : ℚ) := by exact_mod_cast h
  have ht : (0 : ℚ) < d * 1000000 := by positivity
  gcongr


/-- C1: for a known positive duration, the extractor returns
`floor(elapsed_us / (duration_seconds * 1_000_000) * 100)` clamped to
`[0, 100]`; and the scenario `out_time_ms=500000`, `out_time_ms=1000000`
with duration 10 s followed by the end-of-stream marker emits the
percentage sequence `5, 10, 100`, the end marker forcing 100. -/
theorem C1_progress_mapping :
    (∀ (us : ℤ), 0 ≤ us → ∀ (d : ℚ), 0 < d →
      progress_from_out_time us (some d) =
        some (max 0 (min 100 ⌊(us : ℚ) / (d * 1000000) * 100⌋))) ∧
    emittedProgress (runLoop (some 10) none
      ["out_time_ms=500000", "out_time_ms=1000000", "progress=end"] 0
      { sampleItem with status := STATUS_RUNNING, progress := some 0 } []).2 =
      [5, 10, 100] := by
  constructor
  · intro us _ d hd
    exact progress_from_out_time_pos d hd us
  · have h1 : parseLine "out_time_ms=500000" = PEvent.outTime 500000 := by decide
    have h2 : parseLine "out_time_ms=1000000" = PEvent.outTime 1000000 := by decide
    have h3 : parseLine "progress=end" = PEvent.endMark := by decide
    have p1 : progress_from_out_time 500000 (some 10) = some 5 := by
      norm_num [progress_from_out_time]
    have p2 : progress_from_out_time 1000000 (some 10) = some 10 := by
      norm_num [progress_from_out_time]
    simp [runLoop, cancelSetAt, h1, h2, h3, p1, p2, emittedProgress, sampleItem]

theorem C1_progress_mapping_witness :
    progress_from_out_time 500000 (some 10) =
      some (max 0 (min 100 ⌊((500000 : ℤ) : ℚ) / ((10 : ℚ) * 1000000) * 100⌋)) :=
  C1_progress_mapping.1 500000 (by norm_num) 10 (by norm_num)

lemma cancelSweepItem_status_ne_queued (it : WorkItem) :
    (cancelSweepItem it).status ≠ STATUS_QUEUED ∨ it.status ≠ STATUS_QUEUED := by
  by_cases h : it.status = STATUS_QUEUED
  · left
    simp [cancelSweepItem, h, STATUS_CANCELED, STATUS_QUEUED]
  · right
    exact h

lemma cancelSweepItem_of_ne (it : WorkItem) (h : it.status ≠ STATUS_QUEUED) :
    cancelSweepItem it = it := by
  simp [cancelSweepItem, h]

lemma cancelSweepItem_of_queued (it : WorkItem) (h : it.status = STATUS_QUEUED) :
    cancelSweepItem it = { it with status := STATUS_CANCELED, message := "canceled" } := by
  simp [cancelSweepItem, h]

lemma cancelSweepItem_idem (it : WorkItem) :
    cancelSweepItem (cancelSweepItem it) = cancelSweepItem it := by
  by_cases h : it.status = STATUS_QUEUED
  · rw [cancelSweepItem_of_queued it h]
    apply cancelSweepItem_of_ne
    simp [STATUS_CANCELED, STATUS_QUEUED]
  · rw [cancelSweepItem_of_ne it h, cancelSweepItem_of_ne it h]

/-- C2: after `cancel()` no item is still queued; every item that was queued
has been swept to canceled and is among the items reported through the
callback; every process in the registry snapshot received a terminate
request; the cancellation flag is set; and a second `cancel()` leaves the
whole handle (in particular every job's status) unchanged. -/
theorem C2_cancel_spec (h : BatchHandle) :
    (∀ it ∈ (BatchHandle.cancel h).1.items, it.status ≠ STATUS_QUEUED) ∧
    (∀ it ∈ h.items, it.status = STATUS_QUEUED →
      cancelSweepItem it ∈ (BatchHandle.cancel h).1.items ∧
      cancelSweepItem it ∈ (BatchHandle.cancel h).2.2 ∧
      (cancelSweepItem it).status = STATUS_CANCELED) ∧
    (BatchHandle.cancel h).2.1 = h.registry ∧
    (BatchHandle.cancel h).1.cancelSet = true ∧
    (BatchHandle.cancel h).1.cancel.1 = (BatchHandle.cancel h).1 := by
  refine ⟨?_, ?_, rfl, rfl, ?_⟩
  · intro it hit
    simp only [BatchHandle.cancel, BatchHandle.mark_queued_canceled, List.mem_map] at hit
    obtain ⟨it0, _, rfl⟩ := hit
    rcases cancelSweepItem_status_ne_queued it0 with hc | hc
    · exact hc
    · rw [cancelSweepItem_of_ne it0 hc]
      exact hc
  · intro it hit hq
    refine ⟨?_, ?_, ?_⟩
    · simp only [BatchHandle.cancel, BatchHandle.mark_queued_canceled]
      exact List.mem_map_of_mem cancelSweepItem hit
    · simp only [BatchHandle.cancel, BatchHandle.mark_queued_canceled]
      apply List.mem_map_of_mem
      simp only [List.mem_filter]
      exact ⟨hit, by simp [hq]⟩
    · rw [cancelSweepItem_of_queued it hq]
  · simp only [BatchHandle.cancel, BatchHandle.mark_queued_canceled]
    congr 1
    simp only [List.map_map]
    apply List.map_congr_left
    intro it _
    exact cancelSweepItem_idem it

theorem C2_cancel_spec_witness :
    (cancelSweepItem sampleItem ∈
      (BatchHandle.cancel { items := [sampleItem] }).1.items ∧
     cancelSweepItem sampleItem ∈
      (BatchHandle.cancel { items := [sampleItem] }).2.2 ∧
     (cancelSweepItem sampleItem).status = STATUS_CANCELED) :=
  (C2_cancel_spec { items := [sampleItem] }).2.1 sampleItem (by decide) (by decide)

lemma retrySweepItem_of_ne (it : WorkItem) (h : it.status ≠ STATUS_FAILED) :
    retrySweepItem it = it := by
  simp [retrySweepItem, h]

lemma retrySweepItem_of_failed (it : WorkItem) (h : it.status = STATUS_FAILED) :
    retrySweepItem it =
      { it with status := STATUS_QUEUED, progress := some 0, error := "" } := by
  simp [retrySweepItem, h]

/-- C3: `retry_failed()` maps every item through the per-item retry action;
an item in any status other than Failed is left entirely unchanged (status,
progress and error included); a Failed item is set back to Queued with
progress 0 and error cleared, stays in the arena, and its id is appended to
the work queue. -/
theorem C3_retry_failed_spec (h : BatchHandle) :
    (BatchHandle.retry_failed h).items = h.items.map retrySweepItem ∧
    (∀ it ∈ h.items, it.status ≠ STATUS_FAILED → retrySweepItem it = it) ∧
    (∀ it ∈ h.items, it.status = STATUS_FAILED →
      retrySweepItem it =
        { it with status := STATUS_QUEUED, progress := some 0, error := "" } ∧
      retrySweepItem it ∈ (BatchHandle.retry_failed h).items ∧
      it.id ∈ (BatchHandle.retry_failed h).queue) := by
  refine ⟨rfl, ?_, ?_⟩
  · intro it _ hne
    exact retrySweepItem_of_ne it hne
  · intro it hit hf
    refine ⟨retrySweepItem_of_failed it hf, ?_, ?_⟩
    · simp only [BatchHandle.retry_failed]
      exact List.mem_map_of_mem retrySweepItem hit
    · simp only [BatchHandle.retry_failed, List.mem_append]
      right
      apply List.mem_map.mpr
      refine ⟨it, ?_, rfl⟩
      simp only [List.mem_filter]
      exact ⟨hit, by simp [hf]⟩

theorem C3_retry_failed_spec_witness :
    retrySweepItem { sampleItem with status := STATUS_FAILED } =
      { { sampleItem with status := STATUS_FAILED } with
          status := STATUS_QUEUED, progress := some 0, error := "" } ∧
    retrySweepItem { sampleItem with status := STATUS_FAILED } ∈
      (BatchHandle.retry_failed
        { items := [{ sampleItem with status := STATUS_FAILED }] }).items ∧
    ({ sampleItem with status := STATUS_FAILED } : WorkItem).id ∈
      (BatchHandle.retry_failed
        { items := [{ sampleItem with status := STATUS_FAILED }] }).queue :=
  (C3_retry_failed_spec
    { items := [{ sampleItem with status := STATUS_FAILED }] }).2.2
    { sampleItem with status := STATUS_FAILED } (by decide) (by decide)

/-- C8: `_terminate_process` never propagates an error; it always issues the
graceful terminate request first; the forced kill is issued exactly when the
terminate call succeeded and the process did not exit within the grace
period; the only wait it performs uses the fixed 3-time-unit grace period,
and that wait happens exactly when the terminate call succeeded. -/
theorem C8_terminate_spec (p : ProcBehavior) :
    (terminate_process p).1 = Except.ok () ∧
    (terminate_process p).2.head? = some TermAction.terminateReq ∧
    (TermAction.killReq ∈ (terminate_process p).2 ↔
      p.terminateRaises = false ∧ p.exitsWithinGrace = false) ∧
    (TermAction.waitFor 3 ∈ (terminate_process p).2 ↔ p.terminateRaises = false) ∧
    (∀ t, TermAction.waitFor t ∈ (terminate_process p).2 → t = 3) := by
  rcases p with ⟨tr, eg, kr⟩
  cases tr <;> cases eg <;> cases kr <;>
    refine ⟨rfl, rfl, by decide, by decide, ?_⟩ <;>
    · intro t ht
      simp only [terminate_process, pyTerminate, pyWaitTimeout, pyKill] at ht
      simp only [if_true, if_false, Bool.false_eq_true, List.mem_cons,
        List.mem_singleton, List.not_mem_nil] at ht
      rcases ht with h | h | h | h <;> first
        | (cases h; rfl)
        | cases h

theorem C8_terminate_spec_witness :
    TermAction.waitFor 3 ∈
      (terminate_process ⟨false, false, false⟩).2 ∧ (3 : ℕ) = 3 :=
  ⟨by decide,
   (C8_terminate_spec ⟨false, false, false⟩).2.2.2.2 3 (by decide)⟩

/-- C9: after the worker threads are joined (abstracted), `wait()` closes
the logging sink exactly once: on a not-yet-closed handle it performs one
close and marks the handle closed, and a second `wait()` changes nothing
(idempotence), so the sink is never closed twice. -/
theorem C9_wait_close_once (h : BatchHandle) :
    (h.closed = false →
      (BatchHandle.wait h).loggerCloses = h.loggerCloses + 1 ∧
      (BatchHandle.wait h).closed = true) ∧
    BatchHandle.wait (BatchHandle.wait h) = BatchHandle.wait h := by
  constructor
  · intro hc
    simp [BatchHandle.wait, hc]
  · by_cases hc : h.closed
    · simp [BatchHandle.wait, hc]
    · simp [BatchHandle.wait, hc]

theorem C9_wait_close_once_witness :
    (BatchHandle.wait { items := [sampleItem] }).loggerCloses =
      ({ items := [sampleItem] } : BatchHandle).loggerCloses + 1 ∧
    (BatchHandle.wait { items := [sampleItem] }).closed = true :=
  (C9_wait_close_once { items := [sampleItem] }).1 (by decide)

lemma suffixPathAux_spec (fs : List String) (path : FsPath) :
    ∀ (fuel counter : ℕ) (c : FsPath),
      suffixPathAux fs path counter fuel = some c →
      ∃ N, counter ≤ N ∧ c = suffixCandidate path N ∧ fsExists fs c = false ∧
        ∀ m, counter ≤ m → m < N → fsExists fs (suffixCandidate path m) = true := by
  intro fuel
  induction fuel with
  | zero =>
    intro counter c hc
    simp [suffixPathAux] at hc
  | succ n ih =>
    intro counter c hc
    simp only [suffixPathAux] at hc
    by_cases he : fsExists fs (suffixCandidate path counter) = true
    · rw [if_pos he] at hc
      obtain ⟨N, hle, hcand, hfree, hmin⟩ := ih (counter + 1) c hc
      refine ⟨N, by omega, hcand, hfree, ?_⟩
      intro m hm1 hm2
      rcases Nat.eq_or_lt_of_le hm1 with heq | hlt
      · rw [← heq]
        exact he
      · exact hmin m hlt hm2
    · rw [if_neg he] at hc
      cases hc
      refine ⟨counter, le_refl _, rfl, ?_, ?_⟩
      · simpa using he
      · intro m hm1 hm2
        omega

/-- C7: under collision policy `suffix`, when the destination already exists
and the search loop terminates (it always does on a finite filesystem),
scan picks the candidate `stem_N` + extension for the smallest `N ≥ 1`
whose candidate is free; the chosen path does not exist at scan time, and
re-running the resolution against an unchanged filesystem yields the same
destination. -/
theorem C7_suffix_policy (fs : List String) (out : FsPath) (fuel : ℕ) (c : FsPath)
    (hex : fsExists fs out = true)
    (hsp : suffix_path fs out fuel = some c) :
    resolveCollision "suffix" fs out fuel = (STATUS_QUEUED, "", some c) ∧
    (∃ N, 1 ≤ N ∧ c = suffixCandidate out N ∧ fsExists fs c = false ∧
      ∀ m, 1 ≤ m → m < N → fsExists fs (suffixCandidate out m) = true) ∧
    (∀ fs2, fs2 = fs →
      resolveCollision "suffix" fs2 out fuel = resolveCollision "suffix" fs out fuel) := by
  refine ⟨?_, suffixPathAux_spec fs out fuel 1 c hsp, fun fs2 h2 => by rw [h2]⟩
  rw [resolveCollision, if_pos hex, if_neg (by decide), if_pos rfl, hsp]


theorem C7_suffix_policy_witness :
    resolveCollision "suffix" c7fs sampleOut 3 =
      (STATUS_QUEUED, "", some { parent := "out", stem := "in_2", suffix := ".mp4" }) :=
  (C7_suffix_policy c7fs sampleOut 3 { parent := "out", stem := "in_2", suffix := ".mp4" }
    (by decide) (by decide)).1

/-- C10: with `dry_run` set, a dequeued job goes Queued → Running → Skipped
with message "dry-run": the effect trace is exactly the Running emission,
the parent-directory creation, and the emission and log record of the final
Skipped item — no process launch, no probe, and no file publish — so the
job is still reported through the item callback and the logging interface. -/
theorem C10_dry_run (config : Config) (env : ProcEnv) (item : WorkItem) (out : FsPath)
    (_hq : item.status = STATUS_QUEUED) (hdry : config.dry_run = true)
    (hc : env.cancelAtStart = false) :
    (process_item config env item out).1 =
      { item with status := STATUS_SKIPPED, message := "dry-run",
                  start_time := some env.startClock, progress := some 0,
                  input_bytes := env.inputSize, end_time := some env.endClock } ∧
    (process_item config env item out).2 =
      [Effect.emit { item with status := STATUS_RUNNING,
                               start_time := some env.startClock, progress := some 0 },
       Effect.mkdirParent out.parent,
       Effect.emit (process_item config env item out).1,
       Effect.logItem (process_item config env item out).1] ∧
    (∀ a b, Effect.launch a b ∉ (process_item config env item out).2) ∧
    (∀ p, Effect.probeInput p ∉ (process_item config env item out).2) ∧
    (∀ s d, Effect.replaceTo s d ∉ (process_item config env item out).2) := by
  have hpe : process_item config env item out =
      ({ item with status := STATUS_SKIPPED, message := "dry-run",
                   start_time := some env.startClock, progress := some 0,
                   input_bytes := env.inputSize, end_time := some env.endClock },
       [Effect.emit { item with status := STATUS_RUNNING,
                                start_time := some env.startClock, progress := some 0 },
        Effect.mkdirParent out.parent,
        Effect.emit { item with status := STATUS_SKIPPED, message := "dry-run",
                                start_time := some env.startClock, progress := some 0,
                                input_bytes := env.inputSize, end_time := some env.endClock },
        Effect.logItem { item with status := STATUS_SKIPPED, message := "dry-run",
                                   start_time := some env.startClock, progress := some 0,
                                   input_bytes := env.inputSize,
                                   end_time := some env.endClock }]) := by
    simp [process_item, hdry, hc]
  rw [hpe]
  refine ⟨rfl, rfl, ?_, ?_, ?_⟩
  · intro a b
    simp
  · intro p
    simp
  · intro s d
    simp

theorem C10_dry_run_witness :
    (process_item { dry_run := true, collision_policy := "skip" } { } sampleItem sampleOut).1 =
      { sampleItem with status := STATUS_SKIPPED, message := "dry-run",
                        start_time := some (0 : ℚ), progress := some 0,
                        input_bytes := none, end_time := some (0 : ℚ) } :=
  (C10_dry_run { dry_run := true, collision_policy := "skip" } { } sampleItem sampleOut
    (by decide) rfl rfl).1

lemma runLoop_preserves (d : Option ℚ) (cAt : Option ℕ) :
    ∀ (lines : List String) (i : ℕ) (it : WorkItem) (effs : List Effect),
      ∃ p, (runLoop d cAt lines i it effs).1 = { it with progress := p } := by
  intro lines
  induction lines with
  | nil =>
    intro i it effs
    exact ⟨it.progress, rfl⟩
  | cons line rest ih =>
    intro i it effs
    rw [runLoop]
    by_cases hc : cancelSetAt cAt i = true
    · rw [if_pos hc]
      exact ⟨it.progress, rfl⟩
    · rw [if_neg hc]
      split
      · exact ih (i + 1) it effs
      · split
        · exact ih (i + 1) it effs
        · split
          · exact ih (i + 1) _ _
          · exact ih (i + 1) it effs
      · exact ih (i + 1) _ _

lemma process_item_encode_outcome (config : Config) (env : ProcEnv) (item : WorkItem)
    (out : FsPath) (m : MediaInfo)
    (hdry : config.dry_run = false) (hc : env.cancelAtStart = false)
    (hca : env.cancelAt = none) (hpr : env.probeResult = Except.ok m)
    (hrc : env.returncode ≠ 0) :
    (process_item config env item out).1.status = STATUS_FAILED ∧
    (process_item config env item out).1.error = joinedStderr env.stderrLines := by
  have hcf : cancelSetAt env.cancelAt env.stdoutLines.length = false := by
    rw [hca]
    rfl
  simp [process_item, hc, hdry, hpr, hcf, hrc, STATUS_FAILED, STATUS_COMPLETED]

lemma process_item_probe_error (config : Config) (env : ProcEnv) (item : WorkItem)
    (out : FsPath) (msg : String)
    (hdry : config.dry_run = false) (hc : env.cancelAtStart = false)
    (hpr : env.probeResult = Except.error msg)
    (hsig : isCorruptionSignature msg = true) :
    (process_item config env item out).1.status = STATUS_FAILED ∧
    (process_item config env item out).1.error =
      "File is corrupted or incomplete: " ++ msg := by
  simp [process_item, hc, hdry, hpr, hsig]


/-- C4 counterexample: a job whose encoding process exits with status 1 and
whose diagnostic stream contains "invalid data found when processing input"
ends Failed, but its error message is exactly the raw diagnostic line: it
contains no corruption classification (neither the code's only
classification text "File is corrupted or incomplete" nor even the word
"corrupted"), contradicting the claim. -/
theorem C4_counterexample :
    (process_item c4Config c4Env sampleItem sampleOut).1.status = STATUS_FAILED ∧
    (process_item c4Config c4Env sampleItem sampleOut).1.error =
      "invalid data found when processing input" ∧
    strContains (process_item c4Config c4Env sampleItem sampleOut).1.error
      "File is corrupted or incomplete" = false ∧
    strContains (process_item c4Config c4Env sampleItem sampleOut).1.error
      "corrupted" = false := by
  obtain ⟨hs, he⟩ := process_item_encode_outcome c4Config c4Env sampleItem sampleOut
    { duration := some 10 } rfl rfl rfl rfl (by decide)
  have hj : joinedStderr c4Env.stderrLines =
      "invalid data found when processing input" := by decide
  rw [hj] at he
  rw [he]
  exact ⟨hs, rfl, by decide, by decide⟩

/-- C4 amended: the corruption classification is applied on the pre-encode
probe failure path, not on the encode failure path: a job whose probe fails
with diagnostic text matching a known corruption signature ends Failed with
error "File is corrupted or incomplete: " followed by the diagnostic; a job
whose encoding process exits non-zero (the batch not being canceled) ends
Failed with the raw joined diagnostic lines ("ffmpeg failed" when empty) as
its error, with no classification added. -/
theorem C4_amended :
    (∀ (config : Config) (env : ProcEnv) (item : WorkItem) (out : FsPath) (m : MediaInfo),
      config.dry_run = false → env.cancelAtStart = false → env.cancelAt = none →
      env.probeResult = Except.ok m → env.returncode ≠ 0 →
      (process_item config env item out).1.status = STATUS_FAILED ∧
      (process_item config env item out).1.error = joinedStderr env.stderrLines) ∧
    (∀ (config : Config) (env : ProcEnv) (item : WorkItem) (out : FsPath) (msg : String),
      config.dry_run = false → env.cancelAtStart = false →
      env.probeResult = Except.error msg → isCorruptionSignature msg = true →
      (process_item config env item out).1.status = STATUS_FAILED ∧
      (process_item config env item out).1.error =
        "File is corrupted or incomplete: " ++ msg) := by
  constructor
  · intro config env item out m hdry hc hca hpr hrc
    exact process_item_encode_outcome config env item out m hdry hc hca hpr hrc
  · intro config env item out msg hdry hc hpr hsig
    exact process_item_probe_error config env item out msg hdry hc hpr hsig


theorem C4_amended_witness :
    ((process_item c4Config c4Env sampleItem sampleOut).1.status = STATUS_FAILED ∧
     (process_item c4Config c4Env sampleItem sampleOut).1.error =
       joinedStderr c4Env.stderrLines) ∧
    ((process_item c4Config c4ProbeEnv sampleItem sampleOut).1.status = STATUS_FAILED ∧
     (process_item c4Config c4ProbeEnv sampleItem sampleOut).1.error =
       "File is corrupted or incomplete: " ++
         "invalid data found when processing input") :=
  ⟨C4_amended.1 c4Config c4Env sampleItem sampleOut { duration := some 10 }
     rfl rfl rfl rfl (by decide),
   C4_amended.2 c4Config c4ProbeEnv sampleItem sampleOut
     "invalid data found when processing input" rfl rfl rfl (by decide)⟩


lemma progress_from_out_time_none (us : ℤ) : progress_from_out_time us none = none := rfl

/-- C5 counterexample: for a job whose probe reports no duration, the run
still emits numeric progress values: the Running transition is emitted with
progress 0, the end-of-stream marker sets progress to 100 and emits it, and
completion emits 100 again — so the emitted numeric progress sequence is
`0, 100, 100`, refuting "no numeric progress value is ever emitted,
including on receipt of the end-of-stream marker". -/
theorem C5_counterexample :
    emittedProgress (process_item c4Config c5Env sampleItem sampleOut).2 =
      [0, 100, 100] ∧
    (100 : ℤ) ∈ emittedProgress (process_item c4Config c5Env sampleItem sampleOut).2 := by
  have h3 : parseLine "progress=end" = PEvent.endMark := by decide
  have hmain : emittedProgress (process_item c4Config c5Env sampleItem sampleOut).2 =
      [0, 100, 100] := by
    simp [process_item, c5Env, c4Config, runLoop, cancelSetAt, h3, durationFalsy,
      emittedProgress]
  exact ⟨hmain, by rw [hmain]; decide⟩

/-- C5 amended: when the duration is unknown, the numeric progress mapping
is indeed never attempted — `progress_from_out_time` returns `none` and a
progress stream without the end-of-stream marker leaves the job's progress
untouched and emits nothing — but the end-of-stream marker (and the
Running/Completed transitions) still set and emit numeric progress. -/
theorem C5_amended :
    (∀ us : ℤ, progress_from_out_time us none = none) ∧
    (∀ (cAt : Option ℕ) (lines : List String) (i : ℕ) (it : WorkItem)
       (effs : List Effect),
      (∀ l ∈ lines, parseLine l ≠ PEvent.endMark) →
      (runLoop none cAt lines i it effs).1 = it ∧
      emittedProgress (runLoop none cAt lines i it effs).2 = emittedProgress effs) := by
  refine ⟨progress_from_out_time_none, ?_⟩
  intro cAt lines
  induction lines with
  | nil =>
    intro i it effs _
    exact ⟨rfl, rfl⟩
  | cons line rest ih =>
    intro i it effs hno
    rw [runLoop]
    by_cases hc : cancelSetAt cAt i = true
    · rw [if_pos hc]
      refine ⟨rfl, ?_⟩
      rw [emittedProgress_append]
      simp [emittedProgress]
    · rw [if_neg hc]
      have hrest : ∀ l ∈ rest, parseLine l ≠ PEvent.endMark := by
        intro l hl
        exact hno l (List.mem_cons_of_mem line hl)
      split
      · exact ih (i + 1) it effs hrest
      · split
        · exact ih (i + 1) it effs hrest
        · rename_i p hp
          rw [progress_from_out_time_none] at hp
          cases hp
      · rename_i hend
        exact absurd hend (hno line (List.mem_cons_self line rest))

theorem C5_amended_witness :
    (runLoop none none ["out_time_ms=500000"] 0
      { sampleItem with status := STATUS_RUNNING, progress := none } []).1 =
      { sampleItem with status := STATUS_RUNNING, progress := none } ∧
    emittedProgress (runLoop none none ["out_time_ms=500000"] 0
      { sampleItem with status := STATUS_RUNNING, progress := none } []).2 =
      emittedProgress [] :=
  C5_amended.2 none ["out_time_ms=500000"] 0
    { sampleItem with status := STATUS_RUNNING, progress := none } [] (by decide)


lemma outTimeValues_cons_other (evs : List PEvent) :
    outTimeValues (PEvent.other :: evs) = outTimeValues evs := rfl

lemma outTimeValues_cons_end (evs : List PEvent) :
    outTimeValues (PEvent.endMark :: evs) = outTimeValues evs := rfl

lemma outTimeValues_cons_out (v : ℤ) (evs : List PEvent) :
    outTimeValues (PEvent.outTime v :: evs) = v :: outTimeValues evs := rfl

lemma noOutAfterEnd_cons_other (evs : List PEvent) :
    noOutAfterEnd (PEvent.other :: evs) = noOutAfterEnd evs := rfl

lemma noOutAfterEnd_cons_out (v : ℤ) (evs : List PEvent) :
    noOutAfterEnd (PEvent.outTime v :: evs) = noOutAfterEnd evs := rfl

lemma outTimeValues_nil_of_all (evs : List PEvent)
    (h : evs.all (fun e =>
      match e with
      | PEvent.outTime _ => false
      | _ => true) = true) :
    outTimeValues evs = [] := by
  induction evs with
  | nil => rfl
  | cons e rest ih =>
    simp only [List.all_cons, Bool.and_eq_true] at h
    cases e with
    | outTime v => cases h.1
    | endMark => rw [outTimeValues_cons_end]; exact ih h.2
    | other => rw [outTimeValues_cons_other]; exact ih h.2

lemma emittedProgress_emit (it : WorkItem) (p : ℤ) (h : it.progress = some p) :
    emittedProgress [Effect.emit it] = [p] := by
  simp [emittedProgress, h]

lemma sorted_append_singleton {l : List ℤ} {p : ℤ}
    (hl : List.Sorted (· ≤ ·) l) (hb : ∀ e ∈ l, e ≤ p) :
    List.Sorted (· ≤ ·) (l ++ [p]) := by
  rw [List.Sorted, List.pairwise_append]
  exact ⟨hl, List.pairwise_singleton _ _, fun a ha b hb2 => by
    rw [List.mem_singleton] at hb2
    rw [hb2]
    exact hb a ha⟩

lemma runLoop_emits_sorted (d : ℚ) (hd : 0 < d) (cAt : Option ℕ) :
    ∀ (lines : List String) (i : ℕ) (it : WorkItem) (effs : List Effect) (c : ℤ),
      it.progress = some c → 0 ≤ c → c ≤ 100 →
      (∀ e ∈ emittedProgress effs, e ≤ c) →
      List.Sorted (· ≤ ·) (emittedProgress effs) →
      (∀ v ∈ outTimeValues (lines.map parseLine), c ≤ clampPct d v) →
      List.Sorted (· ≤ ·) (outTimeValues (lines.map parseLine)) →
      noOutAfterEnd (lines.map parseLine) = true →
      List.Sorted (· ≤ ·) (emittedProgress (runLoop (some d) cAt lines i it effs).2) := by
  intro lines
  induction lines with
  | nil =>
    intro i it effs c _ _ _ _ hsort _ _ _
    exact hsort
  | cons line rest ih =>
    intro i it effs c hprog hc0 hc100 hbound hsort hlow hvsort hnoe
    simp only [List.map_cons] at hlow hvsort hnoe
    rw [runLoop]
    by_cases hcan : cancelSetAt cAt i = true
    · rw [if_pos hcan]
      rw [emittedProgress_append]
      simpa [emittedProgress] using hsort
    · rw [if_neg hcan]
      split
      · rename_i heq
        rw [heq, outTimeValues_cons_other] at hlow hvsort
        rw [heq, noOutAfterEnd_cons_other] at hnoe
        exact ih (i + 1) it effs c hprog hc0 hc100 hbound hsort hlow hvsort hnoe
      · rename_i us heq
        rw [heq, outTimeValues_cons_out] at hlow hvsort
        rw [heq, noOutAfterEnd_cons_out] at hnoe
        have hhead := (List.sorted_cons.mp hvsort).1
        have hvrest := (List.sorted_cons.mp hvsort).2
        have hcle : c ≤ clampPct d us := hlow us (List.mem_cons_self _ _)
        have hlowrest : ∀ v ∈ outTimeValues (rest.map parseLine),
            clampPct d us ≤ clampPct d v :=
          fun v hv => clampPct_mono d hd (hhead v hv)
        split
        · rename_i p hp
          rw [progress_from_out_time_pos d hd us] at hp
          cases hp
        · rename_i p hp
          rw [progress_from_out_time_pos d hd us] at hp
          have hpc : p = clampPct d us := (Option.some.injEq _ _).mp hp.symm
          split
          · have hcp2 : c ≤ p := by
              rw [hpc]
              exact hcle
            refine ih (i + 1) { it with progress := some p }
              (effs ++ [Effect.emit { it with progress := some p }]) p rfl ?_ ?_ ?_ ?_ ?_
              hvrest hnoe
            · rw [hpc]
              exact clampPct_nonneg d us
            · rw [hpc]
              exact clampPct_le_100 d us
            · intro e he
              rw [emittedProgress_append, emittedProgress_emit _ p rfl] at he
              rcases List.mem_append.mp he with h1 | h1
              · exact le_trans (hbound e h1) hcp2
              · rw [List.mem_singleton.mp h1]
            · rw [emittedProgress_append, emittedProgress_emit _ p rfl]
              exact sorted_append_singleton hsort
                (fun e he => le_trans (hbound e he) hcp2)
            · intro v hv
              rw [hpc]
              exact hlowrest v hv
          · rename_i hne
            have hpeq : some p = it.progress := not_ne_iff.mp hne
            have hcp : p = c := by
              rw [hprog] at hpeq
              exact (Option.some.injEq _ _).mp hpeq
            refine ih (i + 1) it effs c hprog hc0 hc100 hbound hsort ?_ hvrest hnoe
            intro v hv
            calc c = p := hcp.symm
              _ = clampPct d us := hpc
              _ ≤ clampPct d v := hlowrest v hv
      · rename_i heq
        rw [heq, outTimeValues_cons_end] at hlow hvsort
        rw [heq] at hnoe
        have hnoe2 := hnoe
        rw [noOutAfterEnd, Bool.and_eq_true] at hnoe2
        have hnil : outTimeValues (rest.map parseLine) = [] :=
          outTimeValues_nil_of_all _ hnoe2.1
        refine ih (i + 1) { it with progress := some 100 }
          (effs ++ [Effect.emit { it with progress := some 100 }]) 100 rfl
          (by norm_num) (le_refl _) ?_ ?_ ?_ ?_ hnoe2.2
        · intro e he
          rw [emittedProgress_append, emittedProgress_emit _ 100 rfl] at he
          rcases List.mem_append.mp he with h1 | h1
          · exact le_trans (hbound e h1) hc100
          · rw [List.mem_singleton.mp h1]
        · rw [emittedProgress_append, emittedProgress_emit _ 100 rfl]
          exact sorted_append_singleton hsort (fun e he => le_trans (hbound e he) hc100)
        · rw [hnil]
          intro v hv
          cases hv
        · rw [hnil]
          exact List.sorted_nil

/-- C6: the progress mapping is monotone in the elapsed time for a fixed
known duration; consequently, a run whose `out_time_ms` events carry
non-decreasing values (with the end marker only at the end) emits a
non-decreasing progress sequence while the job is Running; and the batch
controller's sweeps never modify a terminal job — `cancel` and
`retry_failed` leave Completed/Skipped/Canceled items entirely unchanged —
except for the Failed → Queued retry, which resets progress to 0. -/
theorem C6_progress_monotone :
    (∀ (d : ℚ), 0 < d → ∀ (us1 us2 : ℤ), us1 ≤ us2 →
      ∀ (p1 p2 : ℤ), progress_from_out_time us1 (some d) = some p1 →
        progress_from_out_time us2 (some d) = some p2 → p1 ≤ p2) ∧
    (∀ (d : ℚ) (cAt : Option ℕ) (lines : List String) (it : WorkItem),
      0 < d → it.progress = some 0 →
      List.Sorted (· ≤ ·) (outTimeValues (lines.map parseLine)) →
      noOutAfterEnd (lines.map parseLine) = true →
      List.Sorted (· ≤ ·) (emittedProgress (runLoop (some d) cAt lines 0 it []).2)) ∧
    (∀ it : WorkItem,
      it.status = STATUS_COMPLETED ∨ it.status = STATUS_SKIPPED ∨
        it.status = STATUS_CANCELED →
      cancelSweepItem it = it ∧ retrySweepItem it = it) ∧
    (∀ it : WorkItem, it.status = STATUS_FAILED →
      (retrySweepItem it).progress = some 0) := by
  refine ⟨?_, ?_, ?_, ?_⟩
  · intro d hd us1 us2 hle p1 p2 hp1 hp2
    rw [progress_from_out_time_pos d hd us1] at hp1
    rw [progress_from_out_time_pos d hd us2] at hp2
    have h1 : p1 = clampPct d us1 := (Option.some.injEq _ _).mp hp1.symm
    have h2 : p2 = clampPct d us2 := (Option.some.injEq _ _).mp hp2.symm
    rw [h1, h2]
    exact clampPct_mono d hd hle
  · intro d cAt lines it hd hprog hvsort hnoe
    refine runLoop_emits_sorted d hd cAt lines 0 it [] 0 hprog (le_refl _)
      (by norm_num) ?_ List.sorted_nil ?_ hvsort hnoe
    · intro e he
      cases he
    · intro v _
      exact clampPct_nonneg d v
  · intro it hterm
    have hnq : it.status ≠ STATUS_QUEUED := by
      rcases hterm with h | h | h <;> rw [h] <;> decide
    have hnf : it.status ≠ STATUS_FAILED := by
      rcases hterm with h | h | h <;> rw [h] <;> decide
    exact ⟨cancelSweepItem_of_ne it hnq, retrySweepItem_of_ne it hnf⟩
  · intro it hf
    rw [retrySweepItem_of_failed it hf]

theorem C6_progress_monotone_witness :
    ((5 : ℤ) ≤ (10 : ℤ)) ∧
    List.Sorted (· ≤ ·) (emittedProgress (runLoop (some 10) none
      ["out_time_ms=500000", "out_time_ms=1000000", "progress=end"] 0
      { sampleItem with status := STATUS_RUNNING, progress := some 0 } []).2) ∧
    (retrySweepItem { sampleItem with status := STATUS_FAILED }).progress = some 0 := by
  refine ⟨?_, ?_, ?_⟩
  · have p1 : progress_from_out_time 500000 (some 10) = some 5 := by
      norm_num [progress_from_out_time]
    have p2 : progress_from_out_time 1000000 (some 10) = some 10 := by
      norm_num [progress_from_out_time]
    exact C6_progress_monotone.1 10 (by norm_num) 500000 1000000 (by norm_num) 5 10 p1 p2
  · exact C6_progress_monotone.2.1 10 none
      ["out_time_ms=500000", "out_time_ms=1000000", "progress=end"]
      { sampleItem with status := STATUS_RUNNING, progress := some 0 }
      (by norm_num) rfl (by decide) (by decide)
  · exact C6_progress_monotone.2.2.2 { sampleItem with status := STATUS_FAILED } rfl
